import Mathlib

/-!
Shallow embedding of the session-scoped streaming chat client of this
repository (frontend service layer in `src/unnamed/part_008` /
`src/frontend/src/services/api.ts`, page logic in `src/unnamed/part_005`
(Query page), and `src/frontend/src/components/Chat/ChatInterface.tsx`).

The definitions below are translated from the TypeScript source:
machine strings are Lean `String`s, JavaScript truthiness of strings is
modelled explicitly (the empty string is falsy), `a || b` fallbacks are
modelled by `jsOr`, and the fetch-streaming read loop of
`apiService.sendChatMessage` is modelled as a fold over the list of raw
text chunks delivered by the reader.
-/

namespace Ok

/-- JavaScript `a || b` where `a` is an optional string field
(`undefined` and the empty string are falsy). -/
def jsOr (a : Option String) (b : String) : String :=
  match a with
  | some s => if s = "" then b else s
  | none => b

/-- JavaScript `a || b` on two optional string values, as used in
`response.headers['x-session-id'] || response.data.session_id`. -/
def jsOrOpt (a b : Option String) : Option String :=
  match a with
  | some s => if s = "" then b else some s
  | none => b

/-- Whether the char-list `pat` is an initial segment of `l`
(helper for the JavaScript `String.prototype.includes` model). -/
def leadsWith : List Char → List Char → Bool
  | [], _ => true
  | _ :: _, [] => false
  | a :: pat, b :: l => a = b && leadsWith pat l

/-- Whether the char-list `pat` occurs somewhere inside `l`. -/
def hasSub (pat : List Char) : List Char → Bool
  | [] => leadsWith pat []
  | c :: l => leadsWith pat (c :: l) || hasSub pat l

/-- JavaScript `hay.includes(needle)` on strings. -/
def containsSub (hay needle : String) : Bool :=
  hasSub needle.data hay.data

/-! ### A restricted JSON value parser

`JSON.parse(line.slice(6))` in the stream loop receives, on the happy
path, one frame object of the shapes documented in the spec
(`{"content": s}`, `{"error": s}`, `{"done": true}`).  The parser below
implements JSON objects whose values are strings without escape
sequences or booleans, which covers the frame grammar; inputs outside
this fragment are rejected (`none`), exactly as `JSON.parse` rejects
the cut-off line pieces relevant to the chunking analysis. -/

/-- JSON values occurring in stream frames. -/
inductive JVal where
  | jstr (s : String)
  | jbool (b : Bool)
deriving DecidableEq, Repr

/-- A parsed JSON object: its member list in source order. -/
abbrev Obj := List (String × JVal)

/-- JSON whitespace. -/
def isWs (c : Char) : Bool :=
  c = ' ' || c = '\t' || c = '\n' || c = '\r'

/-- Drop leading JSON whitespace. -/
def skipWs : List Char → List Char
  | [] => []
  | c :: cs => if isWs c then skipWs cs else c :: cs

/-- Read the characters of a JSON string after its opening quote, up to
the closing quote; escape sequences are outside the modelled fragment
and make the parse fail. -/
def strChars : List Char → Option (List Char × List Char)
  | [] => none
  | c :: cs =>
    if c = '"' then some ([], cs)
    else if c = '\\' then none
    else
      match strChars cs with
      | some (s, rest) => some (c :: s, rest)
      | none => none

/-- Parse one JSON value of the frame fragment (string, `true`, `false`). -/
def parseJVal : List Char → Option (JVal × List Char)
  | '"' :: cs =>
    match strChars cs with
    | some (s, rest) => some (JVal.jstr (String.mk s), rest)
    | none => none
  | 't' :: 'r' :: 'u' :: 'e' :: cs => some (JVal.jbool true, cs)
  | 'f' :: 'a' :: 'l' :: 's' :: 'e' :: cs => some (JVal.jbool false, cs)
  | _ => none

/-- Parse the members of a JSON object after its opening brace, ending
at the closing brace; `fuel` bounds the number of members. -/
def parseMembers (fuel : Nat) (cs : List Char) : Option (Obj × List Char) :=
  match fuel with
  | 0 => none
  | fuel + 1 =>
    match cs with
    | '"' :: cs1 =>
      match strChars cs1 with
      | some (k, cs2) =>
        match skipWs cs2 with
        | ':' :: cs3 =>
          match parseJVal (skipWs cs3) with
          | some (v, cs4) =>
            match skipWs cs4 with
            | '\x7d' :: cs5 => some ([(String.mk k, v)], cs5)
            | ',' :: cs5 =>
              match parseMembers fuel (skipWs cs5) with
              | some (ms, cs6) => some ((String.mk k, v) :: ms, cs6)
              | none => none
            | _ => none
          | none => none
        | _ => none
      | none => none
    | _ => none

/-- Parse a whole JSON object (the payload of one `data: ` line); the
entire input must be consumed, as with `JSON.parse`. -/
def parseObj (cs : List Char) : Option Obj :=
  match skipWs cs with
  | c :: r =>
    if c = '\x7b' then
      match skipWs r with
      | c2 :: r2 =>
        if c2 = '\x7d' then
          if skipWs r2 = [] then some [] else none
        else
          match parseMembers (r.length + 1) (c2 :: r2) with
          | some (ms, rest) => if skipWs rest = [] then some ms else none
          | none => none
      | [] => none
    else none
  | [] => none

/-- JavaScript property lookup on a parsed JSON object
(`JSON.parse` keeps the last duplicate member). -/
def getField (o : Obj) (k : String) : Option JVal :=
  match o with
  | [] => none
  | (k2, v) :: rest =>
    match getField rest k with
    | some v2 => some v2
    | none => if k2 = k then some v else none

/-- JavaScript truthiness of a JSON value. -/
def jvTruthy : JVal → Bool
  | JVal.jstr s => decide (s ≠ "")
  | JVal.jbool b => b

/-- Truthiness of a possibly-absent object field,
as in `if (data.error)`. -/
def truthy (v : Option JVal) : Bool :=
  match v with
  | some v => jvTruthy v
  | none => false

/-- String coercion applied when a field value is concatenated, as in
`fullResponse += data.content`. -/
def jvStr : JVal → String
  | JVal.jstr s => s
  | JVal.jbool b => if b then "true" else "false"

/-! ### The stream-decoding loop of `apiService.sendChatMessage`

The source reads raw chunks from `response.body.getReader()`, splits
each chunk on newline (`chunk.split('\n')`) with NO carry-over buffer
between chunks, and scans each resulting line:

* lines not starting with `data: ` are ignored;
* otherwise `JSON.parse(line.slice(6))` is attempted inside a
  per-line `try`; a parse failure logs a warning and continues;
* a truthy `data.error` raises `new Error(data.error)`, which is
  caught by the SAME per-line `catch (parseError)` and therefore also
  just continues;
* a truthy `data.content` is appended to `fullResponse` and passed to
  `onChunk`;
* a truthy `data.done` makes the whole call return
  `{success: true, data: {response: fullResponse}}` immediately;
* if the reader is exhausted without a `done` frame, the call returns
  the same success value with the accumulated `fullResponse`.
-/

/-- Mirror of `line.startsWith('data: ')` followed by `line.slice(6)`:
the remainder of the line after the `data: ` prefix, if present. -/
def dataTail : List Char → Option (List Char)
  | 'd' :: 'a' :: 't' :: 'a' :: ':' :: ' ' :: rest => some rest
  | _ => none

/-- State of the streaming read loop: the accumulated `fullResponse`,
the arguments passed to `onChunk` so far (in order), and whether a
`done` frame has already returned from the loop. -/
structure DecSt where
  full : String
  emitted : List String
  terminated : Bool
deriving DecidableEq, Repr

/-- The initial loop state (`fullResponse = ''`). -/
def initSt : DecSt := ⟨"", [], false⟩

/-- Process one successfully parsed frame object: a truthy `error`
raises, but the raise is caught by the per-line catch, so the state is
unchanged and scanning continues; otherwise a truthy `content` is
accumulated and emitted, and then a truthy `done` returns from the
loop. -/
def procObj (st : DecSt) (obj : Obj) : DecSt :=
  if truthy (getField obj "error") then
    st
  else
    let st1 :=
      match getField obj "content" with
      | some v =>
        if jvTruthy v then
          { st with full := st.full ++ jvStr v,
                    emitted := st.emitted ++ [jvStr v] }
        else st
      | none => st
    if truthy (getField obj "done") then
      { st1 with terminated := true }
    else st1

/-- Process one line of a chunk, exactly as the `for (const line of
lines)` body does.  Once a `done` frame has returned, no further line
is processed (the surrounding function has returned). -/
def procLine (st : DecSt) (line : List Char) : DecSt :=
  if st.terminated then st
  else
    match dataTail line with
    | none => st
    | some rest =>
      match parseObj rest with
      | none => st
      | some obj => procObj st obj

/-- JavaScript `chunk.split('\n')` on the characters of one chunk. -/
def splitNl : List Char → List (List Char)
  | [] => [[]]
  | c :: cs =>
    if c = '\n' then [] :: splitNl cs
    else
      match splitNl cs with
      | l :: ls => (c :: l) :: ls
      | [] => [[c]]

/-- Feed one raw chunk to the loop: split on newline, scan each line. -/
def procChunk (st : DecSt) (chunk : String) : DecSt :=
  (splitNl chunk.data).foldl procLine st

/-- Run the whole read loop on the chunk sequence delivered by the
transport. -/
def decodeChunks (chunks : List String) : DecSt :=
  chunks.foldl procChunk initSt

/-! ### Session-id handling

`currentSessionId` is module-level state mirrored into `localStorage`;
we model both mirrors with one `Option String` since every write in
the source updates both together. -/

/-- The axios response interceptor: adopt `response.headers['x-session-id']`
if it is truthy and differs from the currently held id. -/
def adoptFromAxios (cur : Option String) (hdr : Option String) : Option String :=
  match hdr with
  | some h => if h ≠ "" ∧ some h ≠ cur then some h else cur
  | none => cur

/-- The extra adoption step at the end of `uploadDocuments`:
`response.headers['x-session-id'] || response.data.session_id`, adopted
when truthy and different from the id the request was sent with.  The
axios interceptor has already run on the same response. -/
def adoptAfterUpload (sentSid : String) (cur : Option String)
    (hdr bodySid : Option String) : Option String :=
  let cur1 := adoptFromAxios cur hdr
  match jsOrOpt hdr bodySid with
  | some r => if r ≠ "" ∧ r ≠ sentSid then some r else cur1
  | none => cur1

/-- Session effect of one `sendChatMessage` call: `ensure` a session
(on `none`, a successful `createSession` stores `created`), send the
request with that id attached, and -- because the chat call uses a raw
`fetch` whose response headers are never read in the source -- leave
the held id untouched afterwards, whatever `X-Session-ID` the chat
response carried. -/
def chatSessionEffect (cur : Option String) (created : String)
    (respHdr : Option String) : Option String × Option String :=
  let ensured := match cur with
    | some s => some s
    | none => some created
  let _ := respHdr
  (ensured, ensured)

/-- The request interceptor attaches the held id, if any, as the
`X-Session-ID` header of the next request. -/
def nextRequestHeader (cur : Option String) : Option String := cur

/-! ### The `ApiResponse` shape of every public operation -/

/-- Result value of a public `apiService` operation: `{success: true,
data}` or `{success: false, error}`. -/
structure Resp (α : Type) where
  success : Bool
  data : Option α
  error : Option String
deriving DecidableEq, Repr

/-- Outcome of one axios round trip: either the parsed response data,
or a failure whose `error.response?.data?.detail` is `detail` (absent
for transport-level errors). -/
inductive AxiosOutcome (α : Type) where
  | ok (data : α)
  | fail (detail : Option String)

/-- `apiService.createSession`: `POST /session`, store the returned id. -/
def createSession : AxiosOutcome String → Resp String
  | .ok sid => ⟨true, some sid, none⟩
  | .fail d => ⟨false, none, some (jsOr d "Failed to create session")⟩

/-- `apiService.uploadDocuments`: ensure a session (propagating a failed
`createSession` result unchanged), then POST the files. -/
def uploadDocuments (sid : Option String) (co : AxiosOutcome String)
    (uo : AxiosOutcome (List String)) : Resp (List String) :=
  match sid, co with
  | none, .fail d => ⟨false, none, some (jsOr d "Failed to create session")⟩
  | _, _ =>
    match uo with
    | .ok docs => ⟨true, some docs, none⟩
    | .fail d => ⟨false, none, some (jsOr d "Upload failed")⟩

/-- Outcome of the `fetch` call in `sendChatMessage`: a streaming body
delivered as chunks, a non-OK status (with the parsed error body when
`response.json()` succeeds), or a thrown transport error. -/
inductive FetchOutcome where
  | streamOk (chunks : List String)
  | httpBad (body : Option (Option String × Option String))
      (status : Nat) (statusText : String)
  | netErr (msg : Option String)

/-- The error message built for a non-OK chat response:
`errorData.detail || errorData.message || 'Chat request failed'`, or
the HTTP status template when the body is not JSON. -/
def chatHttpErrMsg (body : Option (Option String × Option String))
    (status : Nat) (statusText : String) : String :=
  match body with
  | some (d, m) => jsOr d (jsOr m "Chat request failed")
  | none => "HTTP " ++ toString status ++ ": " ++ statusText

/-- `apiService.sendChatMessage` (streaming path, an `onChunk` callback
supplied): ensure a session, `fetch` `/chat`, and on success run the
read loop; every thrown error is converted to a failure response by
the surrounding catch (`error.message || 'Chat request failed'`). -/
def sendChatMessage (sid : Option String) (co : AxiosOutcome String)
    (fo : FetchOutcome) : Resp String :=
  match sid, co with
  | none, .fail d => ⟨false, none, some (jsOr d "Failed to create session")⟩
  | _, _ =>
    match fo with
    | .streamOk chunks => ⟨true, some (decodeChunks chunks).full, none⟩
    | .httpBad body status stext =>
      ⟨false, none,
        some (jsOr (some (chatHttpErrMsg body status stext)) "Chat request failed")⟩
    | .netErr m => ⟨false, none, some (jsOr m "Chat request failed")⟩

/-- Result of `apiService.listDocuments`, including whether a request
was issued to the server at all. -/
structure ListResult where
  success : Bool
  documents : List String
  count : Nat
  error : Option String
  contactedServer : Bool
deriving DecidableEq, Repr

/-- `apiService.listDocuments`: with no held session id, return
`{success: true, data: {documents: [], count: 0}}` without issuing any
request; otherwise `GET /documents` with the `X-Session-ID` header. -/
def listDocuments (sid : Option String)
    (o : AxiosOutcome (List String)) : ListResult :=
  match sid with
  | none => ⟨true, [], 0, none, false⟩
  | some _ =>
    match o with
    | .ok docs => ⟨true, docs, docs.length, none, true⟩
    | .fail d => ⟨false, [], 0, some (jsOr d "Failed to list documents"), true⟩

/-- `apiService.deleteDocument`. -/
def deleteDocument : AxiosOutcome Unit → Resp Unit
  | .ok u => ⟨true, some u, none⟩
  | .fail d => ⟨false, none, some (jsOr d "Failed to delete document")⟩

/-- `apiService.clearAllDocuments`: with a held session, `DELETE
/session/{id}`; with none, succeed with a message. -/
def clearAllDocuments (sid : Option String)
    (o : AxiosOutcome Unit) : Resp Unit :=
  match sid with
  | none => ⟨true, some (), none⟩
  | some _ =>
    match o with
    | .ok u => ⟨true, some u, none⟩
    | .fail d => ⟨false, none, some (jsOr d "Failed to clear documents")⟩

/-- `apiService.healthCheck`. -/
def healthCheck : AxiosOutcome Unit → Resp Unit
  | .ok u => ⟨true, some u, none⟩
  | .fail d => ⟨false, none, some (jsOr d "Health check failed")⟩

/-! ### Chat history and the Query page turn logic (`part_005`)

Chat messages carry `type: 'user' | 'assistant'`, `content`, and
`isStreaming`.  Message ids are fresh (`Date.now()`-based with a
role-specific prefix), so the by-id functional updates of
`handleSendMessage` always target the assistant placeholder it just
appended; the model therefore represents the update as acting on that
final list element. -/

/-- Message roles (`msg.type` in the source). -/
inductive Role where
  | user
  | assistant
deriving DecidableEq, Repr

/-- A chat message as held in the `chatMessages` React state. -/
structure Msg where
  role : Role
  content : String
  streaming : Bool
deriving DecidableEq, Repr

/-- A completed user message. -/
def mkUser (text : String) : Msg := ⟨Role.user, text, false⟩

/-- A completed assistant message. -/
def mkAsst (text : String) : Msg := ⟨Role.assistant, text, false⟩

/-- How one turn of `handleSendMessage` resolved: either the HTTP call
succeeded and the transport delivered `chunks` to the read loop, or
the call failed with a (nonempty) error message and the catch block
ran. -/
inductive TurnOutcome where
  | streamed (chunks : List String)
  | failed (errMsg : String)

/-- The content written into the assistant placeholder when the turn
finishes.  Success path: `accumulatedResponse || result.data?.response
|| 'No response received'`, where `accumulatedResponse` is the
concatenation of all `onChunk` arguments and `result.data.response` is
the decoder `fullResponse`.  Failure path: the apology template built
in the catch block. -/
def finalAssistantContent : TurnOutcome → String
  | .streamed chunks =>
    let d := decodeChunks chunks
    let acc := String.join d.emitted
    if acc = "" then (if d.full = "" then "No response received" else d.full)
    else acc
  | .failed m =>
    "I apologize, but I encountered an error: " ++ m ++ ". Please try again."

/-- Net effect of `handleSendMessage(text)` on the `chatMessages`
state once the turn has finished: the user message is appended, the
assistant placeholder is appended and then overwritten in place with
the final content and `isStreaming: false`. -/
def sendTurn (h : List Msg) (text : String) (o : TurnOutcome) : List Msg :=
  h ++ [mkUser text,
        { role := Role.assistant, content := finalAssistantContent o,
          streaming := false }]

/-- JavaScript `arr.findLastIndex(msg => msg.type === 'user')`,
as `none` for `-1`. -/
def findLastUserIdx : List Msg → Option Nat
  | [] => none
  | m :: ms =>
    match findLastUserIdx ms with
    | some i => some (i + 1)
    | none => if m.role = Role.user then some 0 else none

/-- JavaScript `[...arr].reverse().find(msg => msg.type === 'user')`. -/
def lastUserMsg (h : List Msg) : Option Msg :=
  h.reverse.find? (fun m => m.role = Role.user)

/-- Net effect of `handleRegenerateResponse` on the `chatMessages`
state once the regenerated turn has finished: slice the history to end
at the most recent user message, then run `handleSendMessage` with
that message's text (which appends a NEW user message before the new
assistant placeholder). -/
def regenerate (h : List Msg) (o : TurnOutcome) : List Msg :=
  if h = [] then h
  else
    match lastUserMsg h with
    | none => h
    | some u =>
      let truncated :=
        match findLastUserIdx h with
        | some i => h.take (i + 1)
        | none => []
      sendTurn truncated u.content o

/-- State visible to `ChatInterface.handleSubmit`: the message list
and the `isLoading` flag (set while a turn is in `Sending`/`Streaming`). -/
structure UiState where
  history : List Msg
  isLoading : Bool
deriving DecidableEq, Repr

/-- `handleSubmit`: only when the trimmed input is nonempty AND
`isLoading` is false does it invoke `onSendMessage` (no queueing
exists in the source); the returned flag records whether a send was
invoked. -/
def handleSubmit (input : String) (st : UiState) (o : TurnOutcome) :
    UiState × Bool :=
  if input.trim ≠ "" ∧ st.isLoading = false then
    (⟨sendTurn st.history input.trim o, false⟩, true)
  else (st, false)

/-! ### The 404-session handler of the axios response interceptor -/

/-- Client-local state relevant to session invalidation: the in-memory
`currentSessionId`, its `localStorage` mirror, and the React state of
the Query page (documents and chat history), which the interceptor
cannot touch. -/
structure LocalState where
  sessionId : Option String
  storedSessionId : Option String
  documents : List String
  chat : List Msg
deriving DecidableEq, Repr

/-- The error branch of the axios response interceptor: on
`status === 404` with a `detail` containing `'Session'`, set
`currentSessionId = null` and remove the `localStorage` entry;
nothing else is modified. -/
def on404Response (st : LocalState) (status : Nat)
    (detail : Option String) : LocalState :=
  if status = 404 ∧
      (match detail with
       | some d => containsSub d "Session"
       | none => false) = true then
    { st with sessionId := none, storedSessionId := none }
  else st

/-! ### Rendering of well-formed frame streams

Used to state the chunking-invariance property: the server-side frame
grammar (spec section 6) renders a content frame as
`data: {"content": "<text>"}` and the terminator as
`data: {"done": true}`, one frame per line. -/

/-- The characters of a rendered content frame line. -/
def renderContentLine (s : String) : List Char :=
  "data: \x7b\"content\": \"".data ++ s.data ++ "\"\x7d".data

/-- The characters of the rendered terminator line. -/
def doneLineChars : List Char :=
  "data: \x7b\"done\": true\x7d".data

/-- A delta text is JSON-safe when rendering it needs no escaping and
it cannot break the line structure: no quote, backslash or newline. -/
def jsonSafe (s : String) : Bool :=
  s.data.all (fun c => !(c = '"' || c = '\\' || c = '\n'))

/-- The lines of the well-formed frame stream carrying the given
delta texts, terminated by a `done` frame. -/
def streamLines (xs : List String) : List (List Char) :=
  xs.map renderContentLine ++ [doneLineChars]

/-- Reassemble a group of complete lines into one raw chunk (each line
followed by its newline). -/
def chunkOfLines (g : List (List Char)) : String :=
  String.mk (g.map (fun l => l ++ ['\n'])).flatten

/-- Concatenation of a list of strings (the reference full text of a
frame stream). -/
def concatAll (xs : List String) : String :=
  xs.foldl (fun a s => a ++ s) ""

/-- The result invariant every public operation satisfies
(claim C9): success, or a nonempty error string. -/
def wellFormedResult (success : Bool) (error : Option String) : Prop :=
  success = true ∨ ∃ e, error = some e ∧ e ≠ ""

/-! ## Helper lemmas -/

theorem jsOr_ne (d : Option String) (s : String) (h : s ≠ "") :
    jsOr d s ≠ "" := by
  cases d with
  | none => simpa [jsOr] using h
  | some x =>
    by_cases hx : x = "" <;> simp [jsOr, hx, h]

theorem join_cons (s : String) (l : List String) :
    String.join (s :: l) = s ++ String.join l := by
  apply String.ext
  simp

theorem join_append_one (l : List String) (s : String) :
    String.join (l ++ [s]) = String.join l ++ s := by
  apply String.ext
  simp

theorem concatAll_eq_join (xs : List String) : concatAll xs = String.join xs := by
  suffices h : ∀ a : String, xs.foldl (fun a s => a ++ s) a = a ++ String.join xs by
    simpa [concatAll] using h ""
  induction xs with
  | nil => intro a; simp [String.join]
  | cons s xs ih =>
    intro a
    simp only [List.foldl_cons, ih, join_cons, String.append_assoc]

theorem jvStr_ne_of_truthy (v : JVal) (h : jvTruthy v = true) : jvStr v ≠ "" := by
  cases v with
  | jstr s => simpa [jvTruthy, jvStr] using h
  | jbool b =>
    cases b with
    | false => simp [jvTruthy] at h
    | true => simp [jvStr]

/-- Each parsed frame either leaves the accumulator and emitted list
untouched, or appends one identical nonempty delta to both. -/
theorem procObj_cases (st : DecSt) (obj : Obj) :
    ((procObj st obj).full = st.full ∧ (procObj st obj).emitted = st.emitted) ∨
    (∃ d, d ≠ "" ∧ (procObj st obj).full = st.full ++ d ∧
      (procObj st obj).emitted = st.emitted ++ [d]) := by
  unfold procObj
  by_cases he : truthy (getField obj "error") = true
  · simp [he]
  · simp only [he, if_false]
    cases hv : getField obj "content" with
    | none =>
      by_cases hd : truthy (getField obj "done") = true <;> simp [hd]
    | some v =>
      by_cases hjv : jvTruthy v = true
      · right
        refine ⟨jvStr v, jvStr_ne_of_truthy v hjv, ?_⟩
        by_cases hd : truthy (getField obj "done") = true <;> simp [hjv, hd]
      · by_cases hd : truthy (getField obj "done") = true <;> simp [hjv, hd]

/-- Each line either leaves the accumulator and the emitted list
untouched, or appends one identical nonempty delta to both. -/
theorem procLine_cases (st : DecSt) (l : List Char) :
    ((procLine st l).full = st.full ∧ (procLine st l).emitted = st.emitted) ∨
    (∃ d, d ≠ "" ∧ (procLine st l).full = st.full ++ d ∧
      (procLine st l).emitted = st.emitted ++ [d]) := by
  unfold procLine
  by_cases ht : st.terminated = true
  · simp [ht]
  · simp only [ht, if_false]
    cases hdt : dataTail l with
    | none => simp
    | some rest =>
      simp only
      cases hpo : parseObj rest with
      | none => simp
      | some obj => exact procObj_cases st obj

theorem procLine_full_join (st : DecSt) (l : List Char)
    (h : st.full = String.join st.emitted) :
    (procLine st l).full = String.join (procLine st l).emitted := by
  rcases procLine_cases st l with ⟨h1, h2⟩ | ⟨d, _, h1, h2⟩
  · rw [h1, h2, h]
  · rw [h1, h2, join_append_one, h]

theorem procLine_emitted_ne (st : DecSt) (l : List Char)
    (h : ∀ s ∈ st.emitted, s ≠ "") :
    ∀ s ∈ (procLine st l).emitted, s ≠ "" := by
  rcases procLine_cases st l with ⟨_, h2⟩ | ⟨d, hd, _, h2⟩
  · rw [h2]; exact h
  · rw [h2]
    intro s hs
    rcases List.mem_append.mp hs with hs | hs
    · exact h s hs
    · simp only [List.mem_singleton] at hs
      exact hs ▸ hd

/-- A decoder-state property preserved by every line is preserved by
every fold over lines and chunks. -/
theorem foldl_pres {α : Type} (Q : DecSt → Prop) (f : DecSt → α → DecSt)
    (hf : ∀ st a, Q st → Q (f st a)) :
    ∀ (l : List α) (st : DecSt), Q st → Q (l.foldl f st) := by
  intro l
  induction l with
  | nil => intro st h; exact h
  | cons a l ih => intro st h; exact ih (f st a) (hf st a h)

theorem decodeChunks_full_join (chunks : List String) :
    (decodeChunks chunks).full = String.join (decodeChunks chunks).emitted := by
  have hchunk : ∀ (st : DecSt) (c : String),
      st.full = String.join st.emitted →
      (procChunk st c).full = String.join (procChunk st c).emitted := by
    intro st c h
    exact foldl_pres (fun st => st.full = String.join st.emitted) procLine
      (fun st l h => procLine_full_join st l h) (splitNl c.data) st h
  exact foldl_pres (fun st => st.full = String.join st.emitted) procChunk
    hchunk chunks initSt (by simp [initSt, String.join])

theorem decodeChunks_emitted_ne (chunks : List String) :
    ∀ s ∈ (decodeChunks chunks).emitted, s ≠ "" := by
  have hchunk : ∀ (st : DecSt) (c : String),
      (∀ s ∈ st.emitted, s ≠ "") →
      ∀ s ∈ (procChunk st c).emitted, s ≠ "" := by
    intro st c h
    exact foldl_pres (fun st => ∀ s ∈ st.emitted, s ≠ "") procLine
      (fun st l h => procLine_emitted_ne st l h) (splitNl c.data) st h
  exact foldl_pres (fun st => ∀ s ∈ st.emitted, s ≠ "") procChunk
    hchunk chunks initSt (by simp [initSt])

/-! ## Claim C1: chunking-invariance of the stream decoder -/

theorem strChars_append (l rest : List Char)
    (h : ∀ c ∈ l, c ≠ '"' ∧ c ≠ '\\') :
    strChars (l ++ '"' :: rest) = some (l, rest) := by
  induction l with
  | nil => simp [strChars]
  | cons c cs ih =>
    have hc := h c (by simp)
    simp [strChars, hc.1, hc.2, ih (fun x hx => h x (by simp [hx]))]

theorem jsonSafe_chars (s : String) (h : jsonSafe s = true) :
    ∀ c ∈ s.data, c ≠ '"' ∧ c ≠ '\\' := by
  intro c hc
  have := List.all_eq_true.mp h c hc
  constructor
  · intro he; subst he; simp at this
  · intro he; subst he; simp at this

theorem jsonSafe_chars3 (s : String) (h : jsonSafe s = true) :
    ∀ c ∈ s.data, c ≠ '"' ∧ c ≠ '\\' ∧ c ≠ '\n' := by
  intro c hc
  have := List.all_eq_true.mp h c hc
  refine ⟨?_, ?_, ?_⟩ <;> (intro he; subst he; simp at this)

theorem parseObj_content (s : String) (h : jsonSafe s = true) :
    parseObj ("\x7b\"content\": \"".data ++ s.data ++ "\"\x7d".data)
      = some [("content", JVal.jstr s)] := by
  obtain ⟨l⟩ := s
  have hs := jsonSafe_chars ⟨l⟩ h
  simp only [String.data] at hs
  show parseObj ('\x7b' :: '"' ::
      ("content".data ++ '"' :: ':' :: ' ' :: '"' :: (l ++ '"' :: '\x7d' :: [])))
    = some [("content", JVal.jstr ⟨l⟩)]
  have hkey := strChars_append ['c', 'o', 'n', 't', 'e', 'n', 't']
    (':' :: ' ' :: '"' :: (l ++ '"' :: '\x7d' :: [])) (by decide)
  simp only [List.cons_append, List.nil_append] at hkey
  have hval := strChars_append l ('\x7d' :: []) hs
  have hcontent : ({ data := ['c', 'o', 'n', 't', 'e', 'n', 't'] } : String)
      = "content" := by decide
  simp [parseObj, parseMembers, parseJVal, skipWs, isWs, hkey, hval, hcontent]

theorem dataTail_contentLine (s : String) :
    dataTail (renderContentLine s)
      = some ("\x7b\"content\": \"".data ++ s.data ++ "\"\x7d".data) := rfl

theorem procLine_contentLine (st : DecSt) (s : String) (hs : jsonSafe s = true)
    (ht : st.terminated = false) :
    procLine st (renderContentLine s) =
      if s = "" then st
      else { st with full := st.full ++ s, emitted := st.emitted ++ [s] } := by
  have hpo := parseObj_content s hs
  have he : getField [("content", JVal.jstr s)] "error" = none := by
    simp [getField]
  have hc : getField [("content", JVal.jstr s)] "content"
      = some (JVal.jstr s) := by
    simp [getField]
  have hd : getField [("content", JVal.jstr s)] "done" = none := by
    simp [getField]
  simp only [procLine, ht, Bool.false_eq_true, if_false,
    dataTail_contentLine, hpo]
  simp only [procObj, he, hc, hd, truthy, jvTruthy, jvStr]
  by_cases hse : s = ""
  · subst hse; simp
  · simp [hse, ht]

theorem procLine_doneLine (st : DecSt) (ht : st.terminated = false) :
    procLine st doneLineChars = { st with terminated := true } := by
  have hdt : dataTail doneLineChars = some "\x7b\"done\": true\x7d".data := rfl
  have hpo : parseObj "\x7b\"done\": true\x7d".data
      = some [("done", JVal.jbool true)] := by decide
  simp only [procLine, ht, Bool.false_eq_true, if_false, hdt, hpo]
  simp [procObj, getField, truthy, jvTruthy]

theorem foldl_contentLines (xs : List String) (st : DecSt)
    (hx : ∀ s ∈ xs, jsonSafe s = true) (ht : st.terminated = false) :
    ((xs.map renderContentLine).foldl procLine st).full
        = st.full ++ String.join xs ∧
    ((xs.map renderContentLine).foldl procLine st).terminated = false := by
  induction xs generalizing st with
  | nil => exact ⟨by simp [String.join], ht⟩
  | cons s xs ih =>
    have hsafe := hx s (by simp)
    have hrest : ∀ t ∈ xs, jsonSafe t = true := fun t htm => hx t (by simp [htm])
    rw [List.map_cons, List.foldl_cons, procLine_contentLine st s hsafe ht]
    by_cases hse : s = ""
    · subst hse
      rw [if_pos rfl]
      have h2 := ih st hrest ht
      exact ⟨by rw [h2.1, join_cons]; simp, h2.2⟩
    · rw [if_neg hse]
      have h2 := ih { st with full := st.full ++ s, emitted := st.emitted ++ [s] }
        hrest (by simp [ht])
      exact ⟨by rw [h2.1, join_cons]; simp [String.append_assoc], h2.2⟩

theorem foldl_streamLines (xs : List String)
    (hx : ∀ s ∈ xs, jsonSafe s = true) :
    ((streamLines xs).foldl procLine initSt).full = String.join xs := by
  unfold streamLines
  rw [List.foldl_append]
  have h1 := foldl_contentLines xs initSt hx rfl
  rw [List.foldl_cons, List.foldl_nil, procLine_doneLine _ h1.2]
  simpa [initSt] using h1.1

theorem splitNl_append_line (l rest : List Char) (h : ∀ c ∈ l, c ≠ '\n') :
    splitNl (l ++ '\n' :: rest) = l :: splitNl rest := by
  induction l with
  | nil => simp [splitNl]
  | cons c cs ih =>
    have hc := h c (by simp)
    rw [List.cons_append]
    simp [splitNl, hc, ih (fun x hx => h x (by simp [hx]))]

theorem splitNl_flatten_lines (g : List (List Char))
    (h : ∀ l ∈ g, ∀ c ∈ l, c ≠ '\n') :
    splitNl (g.map (fun l => l ++ ['\n'])).flatten = g ++ [[]] := by
  induction g with
  | nil => simp [splitNl]
  | cons l g ih =>
    simp only [List.map_cons, List.flatten_cons, List.append_assoc,
      List.singleton_append]
    rw [splitNl_append_line l _ (h l (by simp)),
      ih (fun x hx => h x (by simp [hx]))]
    rfl

theorem procLine_nil (st : DecSt) : procLine st [] = st := by
  by_cases ht : st.terminated = true <;> simp [procLine, ht, dataTail]

theorem procChunk_of_lines (st : DecSt) (g : List (List Char))
    (h : ∀ l ∈ g, ∀ c ∈ l, c ≠ '\n') :
    procChunk st (chunkOfLines g) = g.foldl procLine st := by
  unfold procChunk chunkOfLines
  rw [show (String.mk (g.map (fun l => l ++ ['\n'])).flatten).data
      = (g.map (fun l => l ++ ['\n'])).flatten from rfl]
  rw [splitNl_flatten_lines g h, List.foldl_append]
  simp [procLine_nil]

theorem foldl_chunks_eq (gs : List (List (List Char))) :
    ∀ (st : DecSt), (∀ l ∈ gs.flatten, ∀ c ∈ l, c ≠ '\n') →
    (gs.map chunkOfLines).foldl procChunk st = gs.flatten.foldl procLine st := by
  induction gs with
  | nil => intro st h; rfl
  | cons g gs ih =>
    intro st h
    rw [List.map_cons, List.foldl_cons,
      procChunk_of_lines st g (fun l hl => h l (by simp [hl])),
      List.flatten_cons, List.foldl_append]
    exact ih _ (fun l hl => h l (by simp [hl]))

theorem noNl_streamLines (xs : List String)
    (hx : ∀ s ∈ xs, jsonSafe s = true) :
    ∀ l ∈ streamLines xs, ∀ c ∈ l, c ≠ '\n' := by
  intro l hl
  unfold streamLines at hl
  rcases List.mem_append.mp hl with hl | hl
  · rcases List.mem_map.mp hl with ⟨s, hsm, rfl⟩
    intro c hc
    unfold renderContentLine at hc
    rcases List.mem_append.mp hc with hc | hc
    · rcases List.mem_append.mp hc with hc | hc
      · revert hc
        have : ∀ c ∈ "data: \x7b\"content\": \"".data, c ≠ '\n' := by decide
        exact this c
      · exact (jsonSafe_chars3 s (hx s hsm) c hc).2.2
    · revert hc
      have : ∀ c ∈ "\"\x7d".data, c ≠ '\n' := by decide
      exact this c
  · simp only [List.mem_singleton] at hl
    subst hl
    have : ∀ c ∈ doneLineChars, c ≠ '\n' := by decide
    exact this

/-- Claim C1 amended: chunking-invariance holds exactly for
line-aligned chunkings.  For every list of JSON-safe delta texts `xs`
and every grouping `gs` of the rendered frame lines into chunks (each
chunk a concatenation of complete lines, i.e. every chunk boundary
falls on a newline), the concatenation of all content-delta payloads
passed to `onChunk` equals the reference full text `String.join xs`,
as does the accumulated `fullResponse`.  (The unrestricted claim is
refuted by `chunk_split_loses_partial_line`: the loop holds no
carry-over buffer, so a boundary inside a `data: ` line loses that
frame.) -/
theorem line_aligned_chunking_invariance (xs : List String)
    (gs : List (List (List Char)))
    (hx : ∀ s ∈ xs, jsonSafe s = true)
    (hg : gs.flatten = streamLines xs) :
    String.join (decodeChunks (gs.map chunkOfLines)).emitted
        = String.join xs ∧
    (decodeChunks (gs.map chunkOfLines)).full = String.join xs := by
  have hnl : ∀ l ∈ gs.flatten, ∀ c ∈ l, c ≠ '\n' := by
    rw [hg]; exact noNl_streamLines xs hx
  have h1 : decodeChunks (gs.map chunkOfLines)
      = (streamLines xs).foldl procLine initSt := by
    rw [decodeChunks, foldl_chunks_eq gs initSt hnl, hg]
  have h2 : (decodeChunks (gs.map chunkOfLines)).full = String.join xs := by
    rw [h1]; exact foldl_streamLines xs hx
  exact ⟨by rw [← decodeChunks_full_join]; exact h2, h2⟩

/-- Claim C1 witness: the spec scenario stream carrying `"Yes"` and
`", after 30 days."`, grouped so that one chunk carries the first
content line and the next chunk carries the second content line
together with the terminator; the emitted deltas concatenate to
`"Yes, after 30 days."`. -/
theorem line_aligned_chunking_invariance_witness :
    ((∀ s ∈ (["Yes", ", after 30 days."] : List String), jsonSafe s = true) ∧
      ([[renderContentLine "Yes"],
        [renderContentLine ", after 30 days.", doneLineChars]] :
          List (List (List Char))).flatten
        = streamLines ["Yes", ", after 30 days."]) ∧
    String.join (decodeChunks
        (([[renderContentLine "Yes"],
           [renderContentLine ", after 30 days.", doneLineChars]] :
             List (List (List Char))).map chunkOfLines)).emitted
      = String.join ["Yes", ", after 30 days."] :=
  ⟨⟨by decide, by decide⟩,
   (line_aligned_chunking_invariance ["Yes", ", after 30 days."]
      [[renderContentLine "Yes"],
       [renderContentLine ", after 30 days.", doneLineChars]]
      (by decide) (by decide)).1⟩

/-- Claim C1 counterexample: the read loop keeps no carry-over buffer,
so a `data: ` line split across two chunks is lost.  The two chunk
pieces concatenate to the well-formed rendered stream carrying the
single delta `"hi"` (reference full text `"hi"`); decoding the stream
as one chunk yields `"hi"`, but decoding the two pieces yields the
empty accumulated text, because both halves of the cut line fail the
prefix test or `JSON.parse`.  This refutes invariance for arbitrary
chunk boundaries. -/
theorem chunk_split_loses_partial_line :
    "data: \x7b\"content\": \"hi\"" ++ "\x7d\ndata: \x7b\"done\": true\x7d\n"
      = chunkOfLines (streamLines ["hi"]) ∧
    (decodeChunks [chunkOfLines (streamLines ["hi"])]).full = "hi" ∧
    (decodeChunks ["data: \x7b\"content\": \"hi\"",
                   "\x7d\ndata: \x7b\"done\": true\x7d\n"]).full = "" ∧
    (decodeChunks ["data: \x7b\"content\": \"hi\"",
                   "\x7d\ndata: \x7b\"done\": true\x7d\n"]).emitted = [] ∧
    ("" : String) ≠ "hi" := by
  refine ⟨by decide, by decide, by decide, by decide, by decide⟩

/-! ## Claim C2: error frames do not terminate the turn (code bug) -/

/-- Claim C2 evaluation at the failing input: a stream whose first
frame is `Error("model unavailable")`.  The `throw new
Error(data.error)` is caught by the same per-line `catch (parseError)`
that handles JSON parse failures, which logs and continues, so the
error frame is silently swallowed: the NEXT line is still processed
(its delta `"X"` is emitted), the call returns success, and the
assistant message receives content `"X"` with `streaming = false` —
not the failed turn with a nonempty error string that the claim (and
the intent evidenced by the surrounding code comments) describes.
Also evaluated: the zero-prior-delta variant, where the turn likewise
does not fail and the placeholder text is shown. -/
theorem error_frame_swallowed_turn_succeeds :
    decodeChunks ["data: \x7b\"error\": \"model unavailable\"\x7d\ndata: \x7b\"content\": \"X\"\x7d\ndata: \x7b\"done\": true\x7d\n"]
      = ⟨"X", ["X"], true⟩ ∧
    sendChatMessage (some "S") (AxiosOutcome.ok "S")
      (FetchOutcome.streamOk
        ["data: \x7b\"error\": \"model unavailable\"\x7d\ndata: \x7b\"content\": \"X\"\x7d\ndata: \x7b\"done\": true\x7d\n"])
      = ⟨true, some "X", none⟩ ∧
    sendTurn [] "hi"
      (TurnOutcome.streamed
        ["data: \x7b\"error\": \"model unavailable\"\x7d\ndata: \x7b\"content\": \"X\"\x7d\ndata: \x7b\"done\": true\x7d\n"])
      = [mkUser "hi", ⟨Role.assistant, "X", false⟩] ∧
    sendTurn [] "hi"
      (TurnOutcome.streamed ["data: \x7b\"error\": \"model unavailable\"\x7d\n"])
      = [mkUser "hi", ⟨Role.assistant, "No response received", false⟩] := by
  refine ⟨by decide, by decide, by decide, by decide⟩

/-! ## Claim C3: regenerate duplicates the user message -/

theorem findLastUserIdx_append_pair (hs : List Msg) (q r : String) :
    findLastUserIdx (hs ++ [mkUser q, mkAsst r]) = some hs.length := by
  induction hs with
  | nil => rfl
  | cons m hs ih => simp [findLastUserIdx, ih]

theorem lastUserMsg_append_pair (hs : List Msg) (q r : String) :
    lastUserMsg (hs ++ [mkUser q, mkAsst r]) = some (mkUser q) := by
  unfold lastUserMsg
  rw [List.reverse_append]
  simp [List.find?, mkUser, mkAsst]

/-- Claim C3 counterexample: on the completed history `[user "q",
assistant "r"]`, `handleRegenerateResponse` truncates to `[user "q"]`
and then calls `handleSendMessage("q")`, which appends a NEW user
message before the assistant placeholder; the turn completing with
text `"r2"` leaves a history of length 3 (the user message
duplicated), not the unchanged length 2 the claim states. -/
theorem regenerate_duplicates_user_message :
    regenerate [mkUser "q", mkAsst "r"]
        (TurnOutcome.streamed
          ["data: \x7b\"content\": \"r2\"\x7d\ndata: \x7b\"done\": true\x7d\n"])
      = [mkUser "q", mkUser "q", mkAsst "r2"] ∧
    (regenerate [mkUser "q", mkAsst "r"]
        (TurnOutcome.streamed
          ["data: \x7b\"content\": \"r2\"\x7d\ndata: \x7b\"done\": true\x7d\n"])).length = 3 ∧
    ([mkUser "q", mkAsst "r"] : List Msg).length = 2 ∧ (3 : Nat) ≠ 2 := by
  refine ⟨by decide, by decide, by decide, by decide⟩

/-- Claim C3 amended: for every history ending in a completed (user,
assistant) turn, `regenerate` removes only the most recent assistant
message but then re-appends the user message (because it re-invokes
the full send logic, including the user-message append), so after the
regenerated turn completes the history is the truncated history plus a
duplicate user message and the new assistant message: its length is
the original length plus one. -/
theorem regenerate_after_completed_turn (hs : List Msg) (q r : String)
    (o : TurnOutcome) :
    regenerate (hs ++ [mkUser q, mkAsst r]) o
      = hs ++ [mkUser q, mkUser q,
          ⟨Role.assistant, finalAssistantContent o, false⟩] ∧
    (regenerate (hs ++ [mkUser q, mkAsst r]) o).length
      = (hs ++ [mkUser q, mkAsst r]).length + 1 := by
  have hne : hs ++ [mkUser q, mkAsst r] ≠ [] := by simp
  have heq : regenerate (hs ++ [mkUser q, mkAsst r]) o
      = hs ++ [mkUser q, mkUser q,
          ⟨Role.assistant, finalAssistantContent o, false⟩] := by
    unfold regenerate
    rw [if_neg hne, lastUserMsg_append_pair hs q r]
    simp only [findLastUserIdx_append_pair hs q r]
    rw [List.take_append]
    simp [sendTurn, mkUser]
  refine ⟨heq, ?_⟩
  rw [heq]
  simp [List.length_append]

/-! ## Claim C4: session-id rotation is axios-only -/

/-- Claim C4 counterexample: the client holds id `"S"`; an upload
response carries `X-Session-ID: A`, which is adopted (interceptor plus
the explicit post-upload check).  A later chat response carries
`X-Session-ID: B`, but `sendChatMessage` performs the chat call with a
raw `fetch` and never reads its response headers, so the held id stays
`"A"` and the next request attaches `"A"`, not the most recently
received `"B"` — refuting rotation-on-every-operation. -/
theorem chat_response_session_id_ignored :
    adoptAfterUpload "S" (some "S") (some "A") none = some "A" ∧
    (chatSessionEffect (some "A") "A" (some "B")).2 = some "A" ∧
    nextRequestHeader (chatSessionEffect (some "A") "A" (some "B")).2
      = some "A" ∧
    (some "A" : Option String) ≠ some "B" := by
  refine ⟨by decide, rfl, rfl, by decide⟩

/-- Claim C4 amended: session-id rotation is followed for every
response routed through the axios client (upload, list, delete,
session and health operations): the interceptor adopts any truthy
differing `X-Session-ID`, and the next request attaches it.  The chat
streaming response, fetched outside axios, has no effect on the held
id whatever header it carries. -/
theorem session_rotation_axios_only :
    (∀ (cur : Option String) (h : String), h ≠ "" →
        adoptFromAxios cur (some h) = some h ∧
        nextRequestHeader (adoptFromAxios cur (some h)) = some h) ∧
    (∀ (cur : Option String) (created : String) (hdr : Option String),
        chatSessionEffect cur created hdr = chatSessionEffect cur created none) := by
  constructor
  · intro cur h hne
    have ha : adoptFromAxios cur (some h) = some h := by
      by_cases hc : some h = cur
      · subst hc; simp [adoptFromAxios]
      · simp [adoptFromAxios, hne, hc]
    exact ⟨ha, by rw [nextRequestHeader, ha]⟩
  · intro cur created hdr; rfl

/-- Claim C4 witness: a fresh client adopting the id `"B"` delivered
by an axios response header. -/
theorem session_rotation_axios_only_witness :
    ("B" : String) ≠ "" ∧ adoptFromAxios none (some "B") = some "B" :=
  ⟨by decide, (session_rotation_axios_only.1 none "B" (by decide)).1⟩

/-! ## Claim C5: stream end without Done or Error -/

/-- Claim C5 counterexample: a stream that closes after one
well-formed frame whose `content` is the empty string ends without
`Done` or `Error` and delivered zero deltas; the claim then asks for
final content `"" `(the concatenation of zero deltas), but the code
falls through `accumulatedResponse || result.data?.response ||
'No response received'` to the nonempty placeholder. -/
theorem zero_delta_stream_placeholder :
    (decodeChunks ["data: \x7b\"content\": \"\"\x7d\n"]).terminated = false ∧
    (decodeChunks ["data: \x7b\"content\": \"\"\x7d\n"]).emitted = [] ∧
    finalAssistantContent
        (TurnOutcome.streamed ["data: \x7b\"content\": \"\"\x7d\n"])
      = "No response received" ∧
    ("No response received" : String) ≠ "" := by
  refine ⟨by decide, by decide, by decide, by decide⟩

/-- Claim C5 amended: if the transport ends without a `done` frame
having been processed, the turn still completes successfully (the api
call returns success with the accumulated text), and — provided at
least one nonempty delta arrived — the final assistant message content
equals the concatenation of all deltas, with `streaming = false`; with
zero deltas the content is the placeholder `'No response received'`
instead. -/
theorem eof_without_done_completes (chunks : List String)
    (hterm : (decodeChunks chunks).terminated = false)
    (hne : String.join (decodeChunks chunks).emitted ≠ "") :
    (∀ (s : String) (co : AxiosOutcome String),
        sendChatMessage (some s) co (FetchOutcome.streamOk chunks)
          = ⟨true, some (decodeChunks chunks).full, none⟩) ∧
    finalAssistantContent (TurnOutcome.streamed chunks)
      = String.join (decodeChunks chunks).emitted ∧
    (∀ (h : List Msg) (m : String),
        sendTurn h m (TurnOutcome.streamed chunks)
          = h ++ [mkUser m,
              ⟨Role.assistant, String.join (decodeChunks chunks).emitted,
               false⟩]) := by
  have hcontext := hterm
  have h2 : finalAssistantContent (TurnOutcome.streamed chunks)
      = String.join (decodeChunks chunks).emitted := by
    simp [finalAssistantContent, hne]
  exact ⟨fun s co => rfl, h2, fun h m => by simp [sendTurn, h2]⟩

/-- Claim C5 witness: the spec scenario — the server closes the stream
after the two deltas `"Yes"` and `", after 30 days."` without a
terminator; the final assistant content is their concatenation. -/
theorem eof_without_done_completes_witness :
    ((decodeChunks ["data: \x7b\"content\": \"Yes\"\x7d\n",
                    "data: \x7b\"content\": \", after 30 days.\"\x7d\n"]).terminated
        = false ∧
     String.join (decodeChunks ["data: \x7b\"content\": \"Yes\"\x7d\n",
                    "data: \x7b\"content\": \", after 30 days.\"\x7d\n"]).emitted
        ≠ "") ∧
    finalAssistantContent
        (TurnOutcome.streamed ["data: \x7b\"content\": \"Yes\"\x7d\n",
                    "data: \x7b\"content\": \", after 30 days.\"\x7d\n"])
      = String.join (decodeChunks ["data: \x7b\"content\": \"Yes\"\x7d\n",
                    "data: \x7b\"content\": \", after 30 days.\"\x7d\n"]).emitted :=
  ⟨⟨by decide, by decide⟩,
   (eof_without_done_completes _ (by decide) (by decide)).2.1⟩

/-! ## Claim C6: single-flight turn invariant -/

/-- Claim C6: while the loading flag is set (a turn is in
`Sending`/`Streaming`), `handleSubmit` rejects the send: the guard
`inputMessage.trim() && !isLoading` fails, `onSendMessage` is not
invoked (returned flag `false`), nothing is queued (no queue exists in
the source), and the chat history is unchanged, so at most one turn is
ever outside `Idle`. -/
theorem send_while_loading_rejected (input : String) (h : List Msg)
    (o : TurnOutcome) :
    handleSubmit input ⟨h, true⟩ o = (⟨h, true⟩, false) := by
  simp [handleSubmit]

/-! ## Claim C7: the 404-session handler clears only the session id -/

/-- Claim C7 counterexample: a 404 whose detail references the
session clears the held session id (memory and localStorage mirror)
but leaves the locally held document list and chat history untouched —
the interceptor contains no code that clears them — so the client DOES
keep documents the server no longer recognizes, refuting the claim
that document set and chat history are cleared entirely. -/
theorem session404_keeps_documents :
    on404Response ⟨some "A", some "A", ["doc1"], [mkUser "q"]⟩ 404
        (some "Session not found")
      = ⟨none, none, ["doc1"], [mkUser "q"]⟩ ∧
    (["doc1"] : List String) ≠ [] ∧
    ([mkUser "q"] : List Msg) ≠ [] := by
  refine ⟨by decide, by decide, by decide⟩

/-- Claim C7 amended: on a server-reported unknown session (HTTP 404
with a detail containing `'Session'`), the client clears exactly its
locally held session id — the in-memory `currentSessionId` and the
`localStorage` mirror — while the document set and chat history held
in component state are unchanged. -/
theorem session404_clears_only_session_id (st : LocalState) (d : String)
    (hd : containsSub d "Session" = true) :
    on404Response st 404 (some d)
      = { st with sessionId := none, storedSessionId := none } := by
  simp [on404Response, hd]

/-- Claim C7 witness: the handler applied to a populated client state
and the concrete detail string `"Session not found"`. -/
theorem session404_clears_only_session_id_witness :
    containsSub "Session not found" "Session" = true ∧
    on404Response ⟨some "A", some "A", ["d1", "d2"], [mkUser "q", mkAsst "a"]⟩
        404 (some "Session not found")
      = ⟨none, none, ["d1", "d2"], [mkUser "q", mkAsst "a"]⟩ :=
  ⟨by decide,
   session404_clears_only_session_id
     ⟨some "A", some "A", ["d1", "d2"], [mkUser "q", mkAsst "a"]⟩
     "Session not found" (by decide)⟩

/-! ## Claim C8: listing documents without a session -/

/-- Claim C8: with no held session id, `listDocuments` returns
`{success: true, data: {documents: [], count: 0}}` without issuing any
server request and with no error, whatever the server would have
answered. -/
theorem list_documents_no_session_empty_success
    (o : AxiosOutcome (List String)) :
    listDocuments none o = ⟨true, [], 0, none, false⟩ := by
  rfl

/-! ## Claim C9: total error interface of the API service -/

/-- Claim C9: every public `apiService` operation, on every modelled
input and failure mode (transport error, non-OK status with or without
a `detail` body, failed session creation), returns a result that is
either a success or carries a nonempty error string; the surrounding
try/catch blocks convert every thrown error into such a value, so no
exception reaches the caller. -/
theorem api_operations_total_error_interface :
    (∀ o : AxiosOutcome String,
        wellFormedResult (createSession o).success (createSession o).error) ∧
    (∀ (sid : Option String) (co : AxiosOutcome String)
        (uo : AxiosOutcome (List String)),
        wellFormedResult (uploadDocuments sid co uo).success
          (uploadDocuments sid co uo).error) ∧
    (∀ (sid : Option String) (co : AxiosOutcome String) (fo : FetchOutcome),
        wellFormedResult (sendChatMessage sid co fo).success
          (sendChatMessage sid co fo).error) ∧
    (∀ (sid : Option String) (o : AxiosOutcome (List String)),
        wellFormedResult (listDocuments sid o).success (listDocuments sid o).error) ∧
    (∀ o : AxiosOutcome Unit,
        wellFormedResult (deleteDocument o).success (deleteDocument o).error) ∧
    (∀ (sid : Option String) (o : AxiosOutcome Unit),
        wellFormedResult (clearAllDocuments sid o).success
          (clearAllDocuments sid o).error) ∧
    (∀ o : AxiosOutcome Unit,
        wellFormedResult (healthCheck o).success (healthCheck o).error) := by
  refine ⟨?_, ?_, ?_, ?_, ?_, ?_, ?_⟩
  · intro o
    cases o with
    | ok sid => left; rfl
    | fail d => right; exact ⟨_, rfl, jsOr_ne d _ (by decide)⟩
  · intro sid co uo
    cases sid with
    | none =>
      cases co with
      | ok s =>
        cases uo with
        | ok docs => left; rfl
        | fail d => right; exact ⟨_, rfl, jsOr_ne d _ (by decide)⟩
      | fail d => right; exact ⟨_, rfl, jsOr_ne d _ (by decide)⟩
    | some s =>
      cases uo with
      | ok docs => left; rfl
      | fail d => right; exact ⟨_, rfl, jsOr_ne d _ (by decide)⟩
  · intro sid co fo
    cases sid with
    | none =>
      cases co with
      | ok s =>
        cases fo with
        | streamOk chunks => left; rfl
        | httpBad body status stext => right; exact ⟨_, rfl, jsOr_ne _ _ (by decide)⟩
        | netErr m => right; exact ⟨_, rfl, jsOr_ne _ _ (by decide)⟩
      | fail d => right; exact ⟨_, rfl, jsOr_ne _ _ (by decide)⟩
    | some s =>
      cases fo with
      | streamOk chunks => left; rfl
      | httpBad body status stext => right; exact ⟨_, rfl, jsOr_ne _ _ (by decide)⟩
      | netErr m => right; exact ⟨_, rfl, jsOr_ne _ _ (by decide)⟩
  · intro sid o
    cases sid with
    | none => left; rfl
    | some s =>
      cases o with
      | ok docs => left; rfl
      | fail d => right; exact ⟨_, rfl, jsOr_ne d _ (by decide)⟩
  · intro o
    cases o with
    | ok u => left; rfl
    | fail d => right; exact ⟨_, rfl, jsOr_ne d _ (by decide)⟩
  · intro sid o
    cases sid with
    | none => left; rfl
    | some s =>
      cases o with
      | ok u => left; rfl
      | fail d => right; exact ⟨_, rfl, jsOr_ne d _ (by decide)⟩
  · intro o
    cases o with
    | ok u => left; rfl
    | fail d => right; exact ⟨_, rfl, jsOr_ne d _ (by decide)⟩

/-! ## Claim C10: empty or absent content fields are dropped -/

/-- Claim C10: the `onChunk` callback is only ever invoked with a
nonempty string (first conjunct: every emitted delta over every chunk
sequence is nonempty), and a well-formed `data: ` frame whose
`content` field is absent or falsy (the empty string) leaves the
accumulated response unchanged and emits nothing (second conjunct). -/
theorem onChunk_only_nonempty :
    (∀ (chunks : List String) (s : String),
        s ∈ (decodeChunks chunks).emitted → s ≠ "") ∧
    (∀ (st : DecSt) (line rest : List Char) (obj : Obj),
        dataTail line = some rest → parseObj rest = some obj →
        truthy (getField obj "content") = false →
        (procLine st line).full = st.full ∧
        (procLine st line).emitted = st.emitted) := by
  constructor
  · intro chunks s hs
    exact decodeChunks_emitted_ne chunks s hs
  · intro st line rest obj hdt hpo hc
    by_cases ht : st.terminated = true
    · simp [procLine, ht]
    · simp only [procLine, ht, if_false, hdt, hpo]
      unfold procObj
      by_cases he : truthy (getField obj "error") = true
      · simp [he]
      · simp only [he, if_false]
        cases hv : getField obj "content" with
        | none =>
          by_cases hd : truthy (getField obj "done") = true <;> simp [hd]
        | some v =>
          have hjv : jvTruthy v = false := by
            simpa [truthy, hv] using hc
          by_cases hd : truthy (getField obj "done") = true <;> simp [hjv, hd]

/-- Claim C10 witness: the theorem applied at a concrete stream (the
delta `"hi"` is a nonempty `onChunk` argument) and at the concrete
empty-content frame `data: {"content": ""}`, which leaves the initial
state untouched. -/
theorem onChunk_only_nonempty_witness :
    ("hi" : String) ≠ "" ∧
    (procLine initSt "data: \x7b\"content\": \"\"\x7d".data).full = initSt.full ∧
    (procLine initSt "data: \x7b\"content\": \"\"\x7d".data).emitted
      = initSt.emitted :=
  ⟨onChunk_only_nonempty.1
      ["data: \x7b\"content\": \"hi\"\x7d\ndata: \x7b\"done\": true\x7d\n"]
      "hi" (by decide),
   (onChunk_only_nonempty.2 initSt _ "\x7b\"content\": \"\"\x7d".data
      [("content", JVal.jstr "")] (by decide) (by decide) (by decide)).1,
   (onChunk_only_nonempty.2 initSt _ "\x7b\"content\": \"\"\x7d".data
      [("content", JVal.jstr "")] (by decide) (by decide) (by decide)).2⟩

end Ok
